import Mathlib

/-!
# MachineSet label reconciler

A shallow embedding of `MachineSetReconciler.Reconcile`
(`controllers/machineset_controller.go`) together with the object-store reads it
performs, followed by the properties of the reconciliation pass.

Go maps may be nil, so every label map is an `Option LabelSet` (`none` is the nil map,
`some []` the empty map).  A nil pointer dereference is an explicit `panicked` outcome.
-/

namespace MachineSetController

/-! ## Data model -/

/-- A Go `map[string]string` that is not nil, as an association list read with `List.lookup`. -/
abbrev LabelSet := List (String × String)

/-- The pair `types.NamespacedName` / `client.ObjectKey`. -/
structure NamespacedName where
  Namespace : String
  Name : String
deriving DecidableEq, Repr

/-- Errors seen by the reconciler: an API status error with reason NotFound, any other
error, and an error wrapped by `fmt.Errorf("<msg>: %w", inner)`. -/
inductive Err where
  | notFound (name : String)
  | other (msg : String)
  | wrapped (msg : String) (inner : Err)
deriving DecidableEq, Repr

/-- The predicate `k8serr.IsNotFound`: looks for a NotFound status through the wrapping chain. -/
def IsNotFound : Err → Bool
  | .notFound _ => true
  | .other _ => false
  | .wrapped _ inner => IsNotFound inner

/-- The part of `machinev1.MachineSet` the reconciler reads: identity and `ObjectMeta.Labels`. -/
structure MachineSet where
  Namespace : String
  Name : String
  Labels : Option LabelSet
deriving DecidableEq, Repr

/-- The type `corev1.ObjectReference`, reduced to the field that is read. -/
structure ObjectReference where
  Name : String
deriving DecidableEq, Repr

/-- The type `machinev1.MachineStatus`: `NodeRef` is a pointer and may be nil. -/
structure MachineStatus where
  NodeRef : Option ObjectReference
deriving DecidableEq, Repr

/-- The part of `machinev1.Machine` the reconciler reads and assigns. -/
structure Machine where
  Namespace : String
  Name : String
  Labels : Option LabelSet
  Status : MachineStatus
deriving DecidableEq, Repr

/-- The part of `corev1.Node` the reconciler reads and assigns (Nodes are cluster scoped). -/
structure Node where
  Name : String
  Labels : Option LabelSet
deriving DecidableEq, Repr

/-- The value `reconcile.Result`. -/
structure Result where
  Requeue : Bool
  RequeueAfter : Nat
deriving DecidableEq, Repr

/-- The zero value `reconcile.Result{}`. -/
def Result.empty : Result := ⟨false, 0⟩

/-! ## The object store behind `client.Client` -/

/-- Contents of the object store, with the read failures it will report: a failure
registered for a key makes the read of that key return the error.  Objects are handed
back as stored: a stored `some []` is a read that yields an empty, non-nil label map,
a stored `none` one that yields the nil map (as a decoded object without labels does). -/
structure Store where
  machineSets : List MachineSet
  machines : List Machine
  nodes : List Node
  getFaults : List (NamespacedName × Err)
  listFaults : List (String × Err)
  nodeFaults : List (NamespacedName × Err)
deriving DecidableEq, Repr

/-- A client call issued by the reconciler. -/
inductive Call where
  | getMachineSet (key : NamespacedName)
  | listMachines (ns : String)
  | getNode (key : NamespacedName)
deriving DecidableEq, Repr

/-- The store together with the log of the client calls made so far. -/
structure World where
  store : Store
  calls : List Call
deriving DecidableEq, Repr

/-- Outcome of a read: the Go pair `(object, err)`. -/
inductive Read (α : Type) where
  | ok (obj : α)
  | fail (err : Err)
deriving DecidableEq, Repr

/-- Answer of the store to `Get` on a MachineSet key. -/
def Store.lookupMachineSet (s : Store) (key : NamespacedName) : Read MachineSet :=
  match s.getFaults.lookup key with
  | some e => .fail e
  | none =>
    match s.machineSets.find? (fun ms => ms.Namespace == key.Namespace && ms.Name == key.Name) with
    | some ms => .ok ms
    | none => .fail (.notFound key.Name)

/-- Answer of the store to `List` of Machines with `client.InNamespace ns`
(the empty namespace selects every namespace). -/
def Store.lookupMachines (s : Store) (ns : String) : Read (List Machine) :=
  match s.listFaults.lookup ns with
  | some e => .fail e
  | none => .ok (if ns == "" then s.machines else s.machines.filter (fun m => m.Namespace == ns))

/-- Answer of the store to `Get` on a Node key. -/
def Store.lookupNode (s : Store) (key : NamespacedName) : Read Node :=
  match s.nodeFaults.lookup key with
  | some e => .fail e
  | none =>
    match s.nodes.find? (fun n => n.Name == key.Name) with
    | some n => .ok n
    | none => .fail (.notFound key.Name)

/-- The call `r.Get(ctx, key, machineSet)`: a read, logged; the store is handed back. -/
def clientGetMachineSet (key : NamespacedName) (w : World) : Read MachineSet × World :=
  (w.store.lookupMachineSet key, ⟨w.store, w.calls ++ [Call.getMachineSet key]⟩)

/-- The call `r.Client.List(ctx, allMachines, client.InNamespace(ns))`. -/
def clientList (ns : String) (w : World) : Read (List Machine) × World :=
  (w.store.lookupMachines ns, ⟨w.store, w.calls ++ [Call.listMachines ns]⟩)

/-- The call `r.Client.Get(ctx, key, node)`. -/
def clientGetNode (key : NamespacedName) (w : World) : Read Node × World :=
  (w.store.lookupNode key, ⟨w.store, w.calls ++ [Call.getNode key]⟩)

/-! ## The reconciler -/

/-- The label step, lines 115-117 and 127-129:
`if target.Labels == nil { target.Labels = machinesetLabel }`. -/
def labelStep (machinesetLabel : Option LabelSet) (target : Option LabelSet) : Option LabelSet :=
  match target with
  | none => machinesetLabel
  | some t => some t

/-- Lines 115-117 on a Machine: only its `Labels` field may be assigned. -/
def stepMachine (machinesetLabel : Option LabelSet) (machine : Machine) : Machine :=
  ⟨machine.Namespace, machine.Name, labelStep machinesetLabel machine.Labels, machine.Status⟩

/-- Lines 127-129 on a Node: only its `Labels` field may be assigned. -/
def stepNode (machinesetLabel : Option LabelSet) (node : Node) : Node :=
  ⟨node.Name, labelStep machinesetLabel node.Labels⟩

/-- The constant `metav1.NamespaceNone`. -/
def NamespaceNone : String := ""

/-- How a loop iteration leaves the function early: `return reconcile.Result{}, err`,
or a nil pointer dereference. -/
inductive Exit where
  | err (e : Err)
  | panic
deriving DecidableEq, Repr

/-- One iteration of the loop body (lines 114-129) on `allMachines.Items[idx]`:
the Machine as left in the slice, then either the local `node` at the end of the
iteration or the early exit. -/
def visit (machinesetLabel : Option LabelSet) (machine : Machine) (w : World) :
    Machine × Except Exit Node × World :=
  let machine : Machine := stepMachine machinesetLabel machine
  match machine.Status.NodeRef with
  | none => (machine, .error .panic, w)
  | some ref =>
    let key : NamespacedName := ⟨NamespaceNone, ref.Name⟩
    match clientGetNode key w with
    | (.fail err, w1) => (machine, .error (.err err), w1)
    | (.ok node, w1) =>
      (machine, .ok (stepNode machinesetLabel node), w1)

/-- What the loop leaves behind: `allMachines.Items` as mutated in place, the `node`
computed by each completed iteration (in order), the early exit if any, and the world. -/
structure LoopOut where
  items : List Machine
  nodes : List Node
  exit : Option Exit
  world : World
deriving DecidableEq, Repr

/-- The loop `for idx := range allMachines.Items` (lines 113-130). -/
def rangeItems (machinesetLabel : Option LabelSet) : List Machine → World → LoopOut
  | [], w => ⟨[], [], none, w⟩
  | machine :: rest, w =>
    match visit machinesetLabel machine w with
    | (machine1, .error x, w1) => ⟨machine1 :: rest, [], some x, w1⟩
    | (machine1, .ok node, w1) =>
      let r := rangeItems machinesetLabel rest w1
      ⟨machine1 :: r.items, node :: r.nodes, r.exit, r.world⟩

/-- How `Reconcile` ends: it returns the Go pair `(result, err)` or it panics. -/
inductive Outcome where
  | returned (result : Result) (err : Option Err)
  | panicked
deriving DecidableEq, Repr

/-- Everything observable of a call of `Reconcile`: how it ended, the in-memory
`allMachines.Items` and `node` values it computed, and the world afterwards. -/
structure ReconcileOut where
  outcome : Outcome
  machines : List Machine
  nodes : List Node
  world : World
deriving DecidableEq, Repr

/-- The method `MachineSetReconciler.Reconcile` (lines 88-134). -/
def Reconcile (w : World) (request : NamespacedName) : ReconcileOut :=
  match clientGetMachineSet request w with
  | (.fail err, w1) =>
    if IsNotFound err then
      ⟨.returned Result.empty none, [], [], w1⟩
    else
      ⟨.returned Result.empty (some err), [], [], w1⟩
  | (.ok machineSet, w1) =>
    match machineSet.Labels with
    | none => ⟨.returned Result.empty none, [], [], w1⟩
    | some _ =>
      let machinesetLabel := machineSet.Labels
      match clientList machineSet.Namespace w1 with
      | (.fail err, w2) =>
        ⟨.returned Result.empty (some (.wrapped "failed to list machines" err)), [], [], w2⟩
      | (.ok allMachines, w2) =>
        let r := rangeItems machinesetLabel allMachines w2
        match r.exit with
        | some (.err err) => ⟨.returned Result.empty (some err), r.items, r.nodes, r.world⟩
        | some .panic => ⟨.panicked, r.items, r.nodes, r.world⟩
        | none => ⟨.returned Result.empty none, r.items, r.nodes, r.world⟩

/-- The Go lookup `v, ok := labels[k]`, which also works on a nil map. -/
def labelOf (labels : Option LabelSet) (k : String) : Option String :=
  match labels with
  | none => none
  | some l => l.lookup k

/-- The Machine's `Status.NodeRef` names a Node whose `Get` succeeds on this store. -/
def resolved (s : Store) (machine : Machine) : Bool :=
  match machine.Status.NodeRef with
  | none => false
  | some ref =>
    match s.lookupNode ⟨NamespaceNone, ref.Name⟩ with
    | .ok _ => true
    | .fail _ => false

/-- The Node reads the loop issues for these Machines, one per Machine with a `NodeRef`. -/
def nodeCalls (machines : List Machine) : List Call :=
  machines.filterMap (fun m => m.Status.NodeRef.map (fun ref => Call.getNode ⟨NamespaceNone, ref.Name⟩))

/-! ## Concrete stores -/

/-- A request for the MachineSet `workers` of namespace `openshift-machine-api`. -/
def workersRequest : NamespacedName := ⟨"openshift-machine-api", "workers"⟩

/-- A store that holds a MachineSet, a Machine and a Node, but not the requested MachineSet. -/
def deletedWorld : World :=
  ⟨⟨[⟨"openshift-machine-api", "infra", some [("foo", "bar")]⟩],
    [⟨"openshift-machine-api", "infra-0", none, ⟨some ⟨"node-9"⟩⟩⟩],
    [⟨"node-9", none⟩], [], [], []⟩, []⟩

/-- A store whose `Get` of the requested MachineSet fails with a transport error. -/
def getFailsWorld : World :=
  ⟨⟨[⟨"openshift-machine-api", "workers", some [("foo", "bar")]⟩],
    [⟨"openshift-machine-api", "worker-0", none, ⟨some ⟨"node-0"⟩⟩⟩],
    [⟨"node-0", none⟩], [(workersRequest, .other "connection refused")], [], []⟩, []⟩

/-- A store whose `List` of the Machines of the namespace fails. -/
def listFailsWorld : World :=
  ⟨⟨[⟨"openshift-machine-api", "workers", some [("foo", "bar")]⟩],
    [⟨"openshift-machine-api", "worker-0", none, ⟨some ⟨"node-0"⟩⟩⟩],
    [⟨"node-0", none⟩], [], [("openshift-machine-api", .other "etcd timeout")], []⟩, []⟩

/-- Desired `foo=bar`; the Machine and its Node already carry labels of their own. -/
def addLabelWorld : World :=
  ⟨⟨[⟨"openshift-machine-api", "workers", some [("foo", "bar")]⟩],
    [⟨"openshift-machine-api", "worker-0", some [("role", "worker")], ⟨some ⟨"node-0"⟩⟩⟩],
    [⟨"node-0", some [("kubernetes.io/hostname", "node-0")]⟩], [], [], []⟩, []⟩

/-- Desired `foo=bar`; the Machine and its Node have never had a label map. -/
def addLabelNilWorld : World :=
  ⟨⟨[⟨"openshift-machine-api", "workers", some [("foo", "bar")]⟩],
    [⟨"openshift-machine-api", "worker-0", none, ⟨some ⟨"node-0"⟩⟩⟩],
    [⟨"node-0", none⟩], [], [], []⟩, []⟩

/-- Desired set made empty (the empty map); the Machine and its Node still carry `foo=bar`. -/
def removeLabelWorld : World :=
  ⟨⟨[⟨"openshift-machine-api", "workers", some []⟩],
    [⟨"openshift-machine-api", "worker-0", some [("foo", "bar")], ⟨some ⟨"node-0"⟩⟩⟩],
    [⟨"node-0", some [("foo", "bar")]⟩], [], [], []⟩, []⟩

/-- Desired set absent (nil map); the Machine and its Node still carry `foo=bar`. -/
def removeLabelNilWorld : World :=
  ⟨⟨[⟨"openshift-machine-api", "workers", none⟩],
    [⟨"openshift-machine-api", "worker-0", some [("foo", "bar")], ⟨some ⟨"node-0"⟩⟩⟩],
    [⟨"node-0", some [("foo", "bar")]⟩], [], [], []⟩, []⟩

/-- Desired `env=prod`; the Machine and its Node both carry `kubernetes.io/hostname=node-0`,
a key that is not in the desired set. -/
def foreignLabelWorld : World :=
  ⟨⟨[⟨"openshift-machine-api", "workers", some [("env", "prod")]⟩],
    [⟨"openshift-machine-api", "worker-0", some [("kubernetes.io/hostname", "node-0")],
      ⟨some ⟨"node-0"⟩⟩⟩],
    [⟨"node-0", some [("kubernetes.io/hostname", "node-0")]⟩], [], [], []⟩, []⟩

/-- Three Machines: the first backed by `node-0`, the second naming the Node `ghost` that
is not in the store, the third backed by `node-2`. -/
def ghostNodeWorld : World :=
  ⟨⟨[⟨"openshift-machine-api", "workers", some [("env", "prod")]⟩],
    [⟨"openshift-machine-api", "worker-0", none, ⟨some ⟨"node-0"⟩⟩⟩,
     ⟨"openshift-machine-api", "worker-1", none, ⟨some ⟨"ghost"⟩⟩⟩,
     ⟨"openshift-machine-api", "worker-2", none, ⟨some ⟨"node-2"⟩⟩⟩],
    [⟨"node-0", none⟩, ⟨"node-2", none⟩], [], [], []⟩, []⟩

/-- Two Machines: the first not yet provisioned (nil `NodeRef`), the second backed by `node-1`. -/
def unboundMachineWorld : World :=
  ⟨⟨[⟨"openshift-machine-api", "workers", some [("env", "prod")]⟩],
    [⟨"openshift-machine-api", "worker-0", none, ⟨none⟩⟩,
     ⟨"openshift-machine-api", "worker-1", none, ⟨some ⟨"node-1"⟩⟩⟩],
    [⟨"node-1", none⟩], [], [], []⟩, []⟩

/-- Desired `foo=bar`; the Machine and its Node both hold the map `foo=baz`. -/
def overwriteWorld : World :=
  ⟨⟨[⟨"test", "test machineset", some [("foo", "bar")]⟩],
    [⟨"test", "test machine", some [("foo", "baz")], ⟨some ⟨"test-node"⟩⟩⟩],
    [⟨"test-node", some [("foo", "baz")]⟩], [], [], []⟩, []⟩

/-! ## Properties of the loop -/

theorem visit_of_nil_ref (d : Option LabelSet) (m : Machine) (w : World)
    (h : m.Status.NodeRef = none) :
    visit d m w = (stepMachine d m, .error .panic, w) := by
  simp [visit, stepMachine, h]

theorem visit_of_fail (d : Option LabelSet) (m : Machine) (w : World) (ref : ObjectReference)
    (err : Err) (h : m.Status.NodeRef = some ref)
    (hn : w.store.lookupNode ⟨NamespaceNone, ref.Name⟩ = .fail err) :
    visit d m w = (stepMachine d m, .error (.err err),
      ⟨w.store, w.calls ++ [Call.getNode ⟨NamespaceNone, ref.Name⟩]⟩) := by
  simp [visit, stepMachine, h, clientGetNode, hn]

theorem visit_of_ok (d : Option LabelSet) (m : Machine) (w : World) (ref : ObjectReference)
    (n : Node) (h : m.Status.NodeRef = some ref)
    (hn : w.store.lookupNode ⟨NamespaceNone, ref.Name⟩ = .ok n) :
    visit d m w = (stepMachine d m, .ok (stepNode d n),
      ⟨w.store, w.calls ++ [Call.getNode ⟨NamespaceNone, ref.Name⟩]⟩) := by
  simp [visit, stepMachine, h, clientGetNode, hn]

/-- The three ways an iteration can go, by the Machine's `NodeRef` and the Node read. -/
theorem visit_cases (d : Option LabelSet) (m : Machine) (w : World) :
    (m.Status.NodeRef = none ∧ visit d m w = (stepMachine d m, .error .panic, w)) ∨
    (∃ ref err, m.Status.NodeRef = some ref ∧
      w.store.lookupNode ⟨NamespaceNone, ref.Name⟩ = .fail err ∧
      visit d m w = (stepMachine d m, .error (.err err),
        ⟨w.store, w.calls ++ [Call.getNode ⟨NamespaceNone, ref.Name⟩]⟩)) ∨
    (∃ ref n, m.Status.NodeRef = some ref ∧
      w.store.lookupNode ⟨NamespaceNone, ref.Name⟩ = .ok n ∧
      visit d m w = (stepMachine d m, .ok (stepNode d n),
        ⟨w.store, w.calls ++ [Call.getNode ⟨NamespaceNone, ref.Name⟩]⟩)) := by
  cases h : m.Status.NodeRef with
  | none => exact Or.inl ⟨rfl, visit_of_nil_ref d m w h⟩
  | some ref =>
    cases hn : w.store.lookupNode ⟨NamespaceNone, ref.Name⟩ with
    | fail err => exact Or.inr (Or.inl ⟨ref, err, rfl, hn, visit_of_fail d m w ref err h hn⟩)
    | ok n => exact Or.inr (Or.inr ⟨ref, n, rfl, hn, visit_of_ok d m w ref n h hn⟩)

theorem rangeItems_store (d : Option LabelSet) (ms : List Machine) (w : World) :
    (rangeItems d ms w).world.store = w.store := by
  induction ms generalizing w with
  | nil => rfl
  | cons m rest ih =>
    rcases visit_cases d m w with ⟨_, hv⟩ | ⟨ref, err, _, _, hv⟩ | ⟨ref, n, _, _, hv⟩
    · simp [rangeItems, hv]
    · simp [rangeItems, hv]
    · simp [rangeItems, hv, ih]

theorem rangeItems_length (d : Option LabelSet) (ms : List Machine) (w : World) :
    (rangeItems d ms w).items.length = ms.length := by
  induction ms generalizing w with
  | nil => rfl
  | cons m rest ih =>
    rcases visit_cases d m w with ⟨_, hv⟩ | ⟨ref, err, _, _, hv⟩ | ⟨ref, n, _, _, hv⟩
    · simp [rangeItems, hv]
    · simp [rangeItems, hv]
    · simp [rangeItems, hv, ih]

/-- Each slot of the slice holds, after the loop, the Machine it held before or that
Machine after the label step. -/
theorem rangeItems_item (d : Option LabelSet) (ms : List Machine) (w : World) (i : Nat)
    (m : Machine) (hm : ms[i]? = some m) :
    (rangeItems d ms w).items[i]? = some m ∨
      (rangeItems d ms w).items[i]? = some (stepMachine d m) := by
  induction ms generalizing w i with
  | nil => simp at hm
  | cons m0 rest ih =>
    rcases visit_cases d m0 w with ⟨_, hv⟩ | ⟨ref, err, _, _, hv⟩ | ⟨ref, n, _, _, hv⟩
    · cases i with
      | zero => simp at hm; subst hm; right; simp [rangeItems, hv]
      | succ j => simp at hm; left; simp [rangeItems, hv, hm]
    · cases i with
      | zero => simp at hm; subst hm; right; simp [rangeItems, hv]
      | succ j => simp at hm; left; simp [rangeItems, hv, hm]
    · cases i with
      | zero => simp at hm; subst hm; right; simp [rangeItems, hv]
      | succ j =>
        simp at hm
        have := ih (⟨w.store, w.calls ++ [Call.getNode ⟨NamespaceNone, ref.Name⟩]⟩) j hm
        simpa [rangeItems, hv] using this

/-- The `node` computed by iteration `i` is the Node read for Machine `i`, after the label step. -/
theorem rangeItems_node (d : Option LabelSet) (ms : List Machine) (w : World) (i : Nat)
    (n1 : Node) (hn : (rangeItems d ms w).nodes[i]? = some n1) :
    ∃ m ref n, ms[i]? = some m ∧ m.Status.NodeRef = some ref ∧
      w.store.lookupNode ⟨NamespaceNone, ref.Name⟩ = .ok n ∧ n1 = stepNode d n := by
  induction ms generalizing w i with
  | nil => simp [rangeItems] at hn
  | cons m0 rest ih =>
    rcases visit_cases d m0 w with ⟨_, hv⟩ | ⟨ref, err, _, _, hv⟩ | ⟨ref, n, href, hlook, hv⟩
    · simp [rangeItems, hv] at hn
    · simp [rangeItems, hv] at hn
    · cases i with
      | zero =>
        simp [rangeItems, hv] at hn
        exact ⟨m0, ref, n, by simp, href, hlook, hn.symm⟩
      | succ j =>
        simp [rangeItems, hv] at hn
        obtain ⟨m, ref1, n2, h1, h2, h3, h4⟩ :=
          ih (⟨w.store, w.calls ++ [Call.getNode ⟨NamespaceNone, ref.Name⟩]⟩) j hn
        exact ⟨m, ref1, n2, by simpa using h1, h2, h3, h4⟩

/-- When every Machine resolves, the loop runs to its end. -/
theorem rangeItems_all_resolved (d : Option LabelSet) (ms : List Machine) (w : World)
    (h : ∀ m ∈ ms, resolved w.store m = true) :
    (rangeItems d ms w).exit = none ∧
      (rangeItems d ms w).items = ms.map (stepMachine d) ∧
      (rangeItems d ms w).nodes.length = ms.length ∧
      (rangeItems d ms w).world = ⟨w.store, w.calls ++ nodeCalls ms⟩ := by
  induction ms generalizing w with
  | nil => simp [rangeItems, nodeCalls]
  | cons m0 rest ih =>
    have h0 : resolved w.store m0 = true := h m0 (by simp)
    rcases visit_cases d m0 w with ⟨href, hv⟩ | ⟨ref, err, href, hlook, hv⟩ | ⟨ref, n, href, hlook, hv⟩
    · simp [resolved, href] at h0
    · simp [resolved, href, hlook] at h0
    · have ih1 := ih (⟨w.store, w.calls ++ [Call.getNode ⟨NamespaceNone, ref.Name⟩]⟩)
        (fun m hm => h m (by simp [hm]))
      obtain ⟨e1, e2, e3, e4⟩ := ih1
      refine ⟨?_, ?_, ?_, ?_⟩
      · simp [rangeItems, hv, e1]
      · simp [rangeItems, hv, e2]
      · simp [rangeItems, hv, e3]
      · simp [rangeItems, hv, e4, nodeCalls, href]

/-- When the Machines of `pre` resolve and the Node read of the next Machine fails,
the loop stops there with that error. -/
theorem rangeItems_abort (d : Option LabelSet) (pre : List Machine) (m : Machine)
    (rest : List Machine) (w : World) (ref : ObjectReference) (err : Err)
    (h : ∀ p ∈ pre, resolved w.store p = true)
    (href : m.Status.NodeRef = some ref)
    (hlook : w.store.lookupNode ⟨NamespaceNone, ref.Name⟩ = .fail err) :
    (rangeItems d (pre ++ m :: rest) w).exit = some (.err err) ∧
      (rangeItems d (pre ++ m :: rest) w).items
        = pre.map (stepMachine d) ++ stepMachine d m :: rest ∧
      (rangeItems d (pre ++ m :: rest) w).nodes.length = pre.length ∧
      (rangeItems d (pre ++ m :: rest) w).world
        = ⟨w.store, w.calls ++ nodeCalls (pre ++ [m])⟩ := by
  induction pre generalizing w with
  | nil =>
    have hv := visit_of_fail d m w ref err href hlook
    simp [rangeItems, hv, nodeCalls, href]
  | cons p0 pre ih =>
    have h0 : resolved w.store p0 = true := h p0 (by simp)
    rcases visit_cases d p0 w with ⟨hr, hv⟩ | ⟨r, e, hr, hl, hv⟩ | ⟨r, n, hr, hl, hv⟩
    · simp [resolved, hr] at h0
    · simp [resolved, hr, hl] at h0
    · obtain ⟨e1, e2, e3, e4⟩ := ih (⟨w.store, w.calls ++ [Call.getNode ⟨NamespaceNone, r.Name⟩]⟩)
        (fun q hq => h q (by simp [hq])) hlook
      refine ⟨?_, ?_, ?_, ?_⟩
      · simp [rangeItems, hv, e1]
      · simp [rangeItems, hv, e2]
      · simp [rangeItems, hv, e3]
      · simp [rangeItems, hv, e4, nodeCalls, hr]

/-- The shape of `Reconcile` once the MachineSet is read with a label map and the List succeeds. -/
theorem Reconcile_loop (w : World) (request : NamespacedName) (machineSet : MachineSet)
    (allMachines : List Machine)
    (hget : w.store.lookupMachineSet request = .ok machineSet)
    (hlab : machineSet.Labels ≠ none)
    (hlist : w.store.lookupMachines machineSet.Namespace = .ok allMachines) :
    let r := rangeItems machineSet.Labels allMachines
      ⟨w.store, w.calls ++ [Call.getMachineSet request, Call.listMachines machineSet.Namespace]⟩
    (Reconcile w request).machines = r.items ∧
      (Reconcile w request).nodes = r.nodes ∧
      (Reconcile w request).world = r.world ∧
      (Reconcile w request).outcome =
        (match r.exit with
          | some (.err err) => .returned Result.empty (some err)
          | some .panic => .panicked
          | none => .returned Result.empty none) := by
  intro r
  cases hl : machineSet.Labels with
  | none => exact absurd hl hlab
  | some l =>
    have hr : rangeItems (some l) allMachines
        ⟨w.store, w.calls ++ [Call.getMachineSet request, Call.listMachines machineSet.Namespace]⟩
        = r := by simp only [r, hl]
    cases hx : r.exit with
    | none => simp [Reconcile, clientGetMachineSet, hget, hl, clientList, hlist, hr, hx]
    | some x =>
      cases x with
      | err e => simp [Reconcile, clientGetMachineSet, hget, hl, clientList, hlist, hr, hx]
      | panic => simp [Reconcile, clientGetMachineSet, hget, hl, clientList, hlist, hr, hx]

/-- No path of `Reconcile` changes the store. -/
theorem Reconcile_store (w : World) (request : NamespacedName) :
    (Reconcile w request).world.store = w.store := by
  cases hget : w.store.lookupMachineSet request with
  | fail err =>
    cases hnf : IsNotFound err <;> simp [Reconcile, clientGetMachineSet, hget, hnf]
  | ok machineSet =>
    cases hl : machineSet.Labels with
    | none => simp [Reconcile, clientGetMachineSet, hget, hl]
    | some l =>
      cases hlist : w.store.lookupMachines machineSet.Namespace with
      | fail err => simp [Reconcile, clientGetMachineSet, hget, hl, clientList, hlist]
      | ok allMachines =>
        have hlab : machineSet.Labels ≠ none := by simp [hl]
        have h := (Reconcile_loop w request machineSet allMachines hget hlab hlist).2.2.1
        rw [h, rangeItems_store]

theorem labelStep_of_ne_none (d t : Option LabelSet) (h : t ≠ none) : labelStep d t = t := by
  cases t with
  | none => exact absurd rfl h
  | some l => rfl

theorem labelOf_labelStep (d t : Option LabelSet) (k v : String) (h : labelOf t k = some v) :
    labelOf (labelStep d t) k = some v := by
  cases t with
  | none => simp [labelOf] at h
  | some l => simpa [labelStep] using h

/-! ## The reconciliation pass -/

/-- C1: when the `Get` of the requested MachineSet fails with NotFound, `Reconcile` returns
the empty result with a nil error, and that `Get` is its only client call: it does not list
Machines, reads no Node, and leaves the store as it was. -/
theorem reconcile_notFound_is_terminal_success (w : World) (request : NamespacedName)
    (err : Err) (hget : w.store.lookupMachineSet request = .fail err)
    (hnf : IsNotFound err = true) :
    Reconcile w request =
      ⟨.returned Result.empty none, [], [],
        ⟨w.store, w.calls ++ [Call.getMachineSet request]⟩⟩ := by
  simp [Reconcile, clientGetMachineSet, hget, hnf]

theorem reconcile_notFound_is_terminal_success_witness :
    deletedWorld.store.lookupMachineSet workersRequest = .fail (.notFound "workers") ∧
    IsNotFound (.notFound "workers") = true ∧
    Reconcile deletedWorld workersRequest =
      ⟨.returned Result.empty none, [], [],
        ⟨deletedWorld.store, deletedWorld.calls ++ [Call.getMachineSet workersRequest]⟩⟩ :=
  ⟨by decide, rfl,
    reconcile_notFound_is_terminal_success deletedWorld workersRequest (.notFound "workers")
      (by decide) rfl⟩

/-- C6: the label step is idempotent for every desired map and every target map, the nil
target included: a second application with the same desired map changes nothing, on the
bare map and on the Machine and the Node that carry it. -/
theorem labelStep_idempotent (d t : Option LabelSet) (machine : Machine) (node : Node) :
    labelStep d (labelStep d t) = labelStep d t ∧
    stepMachine d (stepMachine d machine) = stepMachine d machine ∧
    stepNode d (stepNode d node) = stepNode d node := by
  refine ⟨?_, ?_, ?_⟩
  · cases t <;> cases d <;> rfl
  · cases h : machine.Labels <;> cases d <;> simp [stepMachine, labelStep, h]
  · cases h : node.Labels <;> cases d <;> simp [stepNode, labelStep, h]

/-- C7: a `Get` of the MachineSet that fails with an error other than NotFound makes
`Reconcile` return that error, and a failing `List` of the Machines makes it return the
error wrapped as "failed to list machines"; in both cases the failed call is the last
client call (each call made once, no Machine or Node read after it). -/
theorem reconcile_surfaces_read_errors (w : World) (request : NamespacedName) :
    (∀ err, w.store.lookupMachineSet request = .fail err → IsNotFound err = false →
      Reconcile w request =
        ⟨.returned Result.empty (some err), [], [],
          ⟨w.store, w.calls ++ [Call.getMachineSet request]⟩⟩) ∧
    (∀ machineSet err, w.store.lookupMachineSet request = .ok machineSet →
      machineSet.Labels ≠ none →
      w.store.lookupMachines machineSet.Namespace = .fail err →
      Reconcile w request =
        ⟨.returned Result.empty (some (.wrapped "failed to list machines" err)), [], [],
          ⟨w.store, w.calls ++
            [Call.getMachineSet request, Call.listMachines machineSet.Namespace]⟩⟩) := by
  refine ⟨?_, ?_⟩
  · intro err hget hnf
    simp [Reconcile, clientGetMachineSet, hget, hnf]
  · intro machineSet err hget hlab hlist
    cases hl : machineSet.Labels with
    | none => exact absurd hl hlab
    | some l => simp [Reconcile, clientGetMachineSet, hget, hl, clientList, hlist]

theorem reconcile_surfaces_read_errors_witness :
    Reconcile getFailsWorld workersRequest =
      ⟨.returned Result.empty (some (.other "connection refused")), [], [],
        ⟨getFailsWorld.store, [Call.getMachineSet workersRequest]⟩⟩ ∧
    Reconcile listFailsWorld workersRequest =
      ⟨.returned Result.empty
          (some (.wrapped "failed to list machines" (.other "etcd timeout"))), [], [],
        ⟨listFailsWorld.store,
          [Call.getMachineSet workersRequest, Call.listMachines "openshift-machine-api"]⟩⟩ :=
  ⟨(reconcile_surfaces_read_errors getFailsWorld workersRequest).1
      (.other "connection refused") (by decide) rfl,
    (reconcile_surfaces_read_errors listFailsWorld workersRequest).2
      ⟨"openshift-machine-api", "workers", some [("foo", "bar")]⟩ (.other "etcd timeout")
      (by decide) (by decide) (by decide)⟩

/-- C10: whatever `Reconcile` returns, the object store after the call is the store before
it: MachineSets, Machines, Nodes and their label maps are unchanged, and so is every read. -/
theorem reconcile_issues_no_write (w : World) (request : NamespacedName) :
    (Reconcile w request).world.store = w.store ∧
    (∀ key, (Reconcile w request).world.store.lookupMachineSet key
      = w.store.lookupMachineSet key) ∧
    (∀ ns, (Reconcile w request).world.store.lookupMachines ns = w.store.lookupMachines ns) ∧
    (∀ key, (Reconcile w request).world.store.lookupNode key = w.store.lookupNode key) := by
  have h := Reconcile_store w request
  exact ⟨h, fun key => by rw [h], fun ns => by rw [h], fun key => by rw [h]⟩

/-- C4: a key `k` that a Machine or Node holds with value `v`, and that is not in the
MachineSet's desired set, is still held with `v` after `Reconcile`: in the store (every
Node read and Machine list answers as before), in the in-memory Machine of every slot of
the list, and in every `node` value the pass computes. -/
theorem reconcile_keeps_labels_outside_desired (w : World) (request : NamespacedName)
    (k v : String) :
    (∀ key n, w.store.lookupNode key = .ok n → labelOf n.Labels k = some v →
      (Reconcile w request).world.store.lookupNode key = .ok n) ∧
    (∀ ns l, w.store.lookupMachines ns = .ok l →
      (Reconcile w request).world.store.lookupMachines ns = .ok l) ∧
    (∀ machineSet allMachines, w.store.lookupMachineSet request = .ok machineSet →
      machineSet.Labels ≠ none → labelOf machineSet.Labels k = none →
      w.store.lookupMachines machineSet.Namespace = .ok allMachines →
      (∀ (i : Nat) (m : Machine), allMachines[i]? = some m → labelOf m.Labels k = some v →
        ∃ m1 : Machine, (Reconcile w request).machines[i]? = some m1 ∧ m1.Name = m.Name ∧
          labelOf m1.Labels k = some v) ∧
      (∀ (i : Nat) (m : Machine) (ref : ObjectReference) (n n1 : Node),
        allMachines[i]? = some m → m.Status.NodeRef = some ref →
        w.store.lookupNode ⟨NamespaceNone, ref.Name⟩ = .ok n →
        labelOf n.Labels k = some v →
        (Reconcile w request).nodes[i]? = some n1 →
        n1.Name = n.Name ∧ labelOf n1.Labels k = some v)) := by
  have hs := Reconcile_store w request
  refine ⟨?_, ?_, ?_⟩
  · intro key n hn _
    rw [hs]; exact hn
  · intro ns l hl
    rw [hs]; exact hl
  · intro machineSet allMachines hget hlab _ hlist
    obtain ⟨hm, hn, -, -⟩ := Reconcile_loop w request machineSet allMachines hget hlab hlist
    refine ⟨?_, ?_⟩
    · intro i m hi hv
      rw [hm]
      rcases rangeItems_item machineSet.Labels allMachines _ i m hi with h | h
      · exact ⟨m, h, rfl, hv⟩
      · exact ⟨stepMachine machineSet.Labels m, h, rfl,
          labelOf_labelStep machineSet.Labels m.Labels k v hv⟩
    · intro i m ref n n1 hi href hlook hv hn1
      rw [hn] at hn1
      obtain ⟨m2, ref2, n2, h1, h2, h3, h4⟩ :=
        rangeItems_node machineSet.Labels allMachines _ i n1 hn1
      rw [hi] at h1
      cases h1
      rw [href] at h2
      cases h2
      have h3a : w.store.lookupNode ⟨NamespaceNone, ref.Name⟩ = .ok n2 := h3
      rw [hlook] at h3a
      cases h3a
      subst h4
      exact ⟨rfl, labelOf_labelStep machineSet.Labels n.Labels k v hv⟩

theorem reconcile_keeps_labels_outside_desired_witness :
    (Reconcile foreignLabelWorld workersRequest).outcome = .returned Result.empty none ∧
    (Reconcile foreignLabelWorld workersRequest).world.store.lookupNode ⟨NamespaceNone, "node-0"⟩
      = .ok ⟨"node-0", some [("kubernetes.io/hostname", "node-0")]⟩ ∧
    (∃ m1, (Reconcile foreignLabelWorld workersRequest).machines[0]? = some m1 ∧
      m1.Name = "worker-0" ∧ labelOf m1.Labels "kubernetes.io/hostname" = some "node-0") ∧
    (∀ n1, (Reconcile foreignLabelWorld workersRequest).nodes[0]? = some n1 →
      n1.Name = "node-0" ∧ labelOf n1.Labels "kubernetes.io/hostname" = some "node-0") :=
  have h := reconcile_keeps_labels_outside_desired foreignLabelWorld workersRequest
    "kubernetes.io/hostname" "node-0"
  ⟨by decide,
    h.1 ⟨NamespaceNone, "node-0"⟩ ⟨"node-0", some [("kubernetes.io/hostname", "node-0")]⟩
      (by decide) (by decide),
    (h.2.2 ⟨"openshift-machine-api", "workers", some [("env", "prod")]⟩
      [⟨"openshift-machine-api", "worker-0", some [("kubernetes.io/hostname", "node-0")],
        ⟨some ⟨"node-0"⟩⟩⟩] (by decide) (by decide) (by decide) (by decide)).1 0
      ⟨"openshift-machine-api", "worker-0", some [("kubernetes.io/hostname", "node-0")],
        ⟨some ⟨"node-0"⟩⟩⟩ (by decide) (by decide),
    fun n1 hn1 => (h.2.2 ⟨"openshift-machine-api", "workers", some [("env", "prod")]⟩
      [⟨"openshift-machine-api", "worker-0", some [("kubernetes.io/hostname", "node-0")],
        ⟨some ⟨"node-0"⟩⟩⟩] (by decide) (by decide) (by decide) (by decide)).2 0
      ⟨"openshift-machine-api", "worker-0", some [("kubernetes.io/hostname", "node-0")],
        ⟨some ⟨"node-0"⟩⟩⟩ ⟨"node-0"⟩ ⟨"node-0", some [("kubernetes.io/hostname", "node-0")]⟩ n1
      (by decide) (by decide) (by decide) (by decide) hn1⟩

/-- C2, evaluated: with desired `foo=bar`, `Reconcile` returns success, yet neither the
Machine nor its Node holds `foo` afterwards, in memory or in the store; and where the
Machine and Node had no label map at all, the store still shows them without one. -/
theorem reconcile_leaves_desired_label_unpropagated :
    (Reconcile addLabelWorld workersRequest).outcome = .returned Result.empty none ∧
    addLabelWorld.store.lookupMachineSet workersRequest
      = .ok ⟨"openshift-machine-api", "workers", some [("foo", "bar")]⟩ ∧
    (Reconcile addLabelWorld workersRequest).machines
      = [⟨"openshift-machine-api", "worker-0", some [("role", "worker")], ⟨some ⟨"node-0"⟩⟩⟩] ∧
    (Reconcile addLabelWorld workersRequest).nodes
      = [⟨"node-0", some [("kubernetes.io/hostname", "node-0")]⟩] ∧
    (∀ m ∈ (Reconcile addLabelWorld workersRequest).world.store.machines,
      labelOf m.Labels "foo" = none) ∧
    (∀ n ∈ (Reconcile addLabelWorld workersRequest).world.store.nodes,
      labelOf n.Labels "foo" = none) ∧
    (Reconcile addLabelNilWorld workersRequest).outcome = .returned Result.empty none ∧
    (∀ m ∈ (Reconcile addLabelNilWorld workersRequest).world.store.machines,
      labelOf m.Labels "foo" = none) ∧
    (∀ n ∈ (Reconcile addLabelNilWorld workersRequest).world.store.nodes,
      labelOf n.Labels "foo" = none) := by
  decide

/-- C3, evaluated: with the desired set made empty, `Reconcile` lists the Machines and
visits them but leaves `foo=bar` on the Machine and on its Node, in memory and in the
store; with the desired set absent it returns right after reading the MachineSet. -/
theorem reconcile_leaves_stale_label_in_place :
    (Reconcile removeLabelWorld workersRequest).outcome = .returned Result.empty none ∧
    (Reconcile removeLabelWorld workersRequest).world.calls
      = [Call.getMachineSet workersRequest, Call.listMachines "openshift-machine-api",
          Call.getNode ⟨NamespaceNone, "node-0"⟩] ∧
    (Reconcile removeLabelWorld workersRequest).machines
      = [⟨"openshift-machine-api", "worker-0", some [("foo", "bar")], ⟨some ⟨"node-0"⟩⟩⟩] ∧
    (Reconcile removeLabelWorld workersRequest).nodes = [⟨"node-0", some [("foo", "bar")]⟩] ∧
    (∀ m ∈ (Reconcile removeLabelWorld workersRequest).world.store.machines,
      labelOf m.Labels "foo" = some "bar") ∧
    (∀ n ∈ (Reconcile removeLabelWorld workersRequest).world.store.nodes,
      labelOf n.Labels "foo" = some "bar") ∧
    (Reconcile removeLabelNilWorld workersRequest).outcome = .returned Result.empty none ∧
    (Reconcile removeLabelNilWorld workersRequest).world.calls
      = [Call.getMachineSet workersRequest] ∧
    (∀ m ∈ (Reconcile removeLabelNilWorld workersRequest).world.store.machines,
      labelOf m.Labels "foo" = some "bar") ∧
    (∀ n ∈ (Reconcile removeLabelNilWorld workersRequest).world.store.nodes,
      labelOf n.Labels "foo" = some "bar") := by
  decide

/-- C5, refuted as stated: the MachineSet exists with a label map, the List succeeds, and
the only irregularity is a Machine whose `NodeRef` names a Node that is not in the store;
`Reconcile` returns the NotFound error of that Node read instead of success, and the
Machine after it is neither given the label step nor has its Node read. -/
theorem reconcile_fails_on_missing_node :
    ghostNodeWorld.store.lookupMachineSet workersRequest
      = .ok ⟨"openshift-machine-api", "workers", some [("env", "prod")]⟩ ∧
    ghostNodeWorld.store.lookupMachines "openshift-machine-api"
      = .ok ghostNodeWorld.store.machines ∧
    ghostNodeWorld.store.lookupNode ⟨NamespaceNone, "ghost"⟩ = .fail (.notFound "ghost") ∧
    (Reconcile ghostNodeWorld workersRequest).outcome
      = .returned Result.empty (some (.notFound "ghost")) ∧
    (Reconcile ghostNodeWorld workersRequest).outcome ≠ .returned Result.empty none ∧
    (Reconcile ghostNodeWorld workersRequest).machines[2]?
      = some ⟨"openshift-machine-api", "worker-2", none, ⟨some ⟨"node-2"⟩⟩⟩ ∧
    Call.getNode ⟨NamespaceNone, "node-2"⟩ ∉ (Reconcile ghostNodeWorld workersRequest).world.calls := by
  decide

/-- C5, amended: when the MachineSet has a label map, the List succeeds, every Machine
listed before `m` has a `NodeRef` naming a Node that is read, and the Node named by the
`NodeRef` of `m` cannot be read, `Reconcile` returns a non-nil error; the label step has
been applied to `m` and to the Machines before it, a `node` is computed only for the
Machines before `m`, the failed Node read is the last client call, and the Machines after
`m` are left unvisited. -/
theorem reconcile_aborts_on_unfetchable_node (w : World) (request : NamespacedName)
    (machineSet : MachineSet) (pre : List Machine) (m : Machine) (rest : List Machine)
    (ref : ObjectReference) (err : Err)
    (hget : w.store.lookupMachineSet request = .ok machineSet)
    (hlab : machineSet.Labels ≠ none)
    (hlist : w.store.lookupMachines machineSet.Namespace = .ok (pre ++ m :: rest))
    (hpre : ∀ p ∈ pre, resolved w.store p = true)
    (href : m.Status.NodeRef = some ref)
    (hlook : w.store.lookupNode ⟨NamespaceNone, ref.Name⟩ = .fail err) :
    (∃ e : Err, (Reconcile w request).outcome = .returned Result.empty (some e)) ∧
    (Reconcile w request).machines
      = pre.map (stepMachine machineSet.Labels) ++ stepMachine machineSet.Labels m :: rest ∧
    (Reconcile w request).nodes.length = pre.length ∧
    (Reconcile w request).world.calls
      = w.calls ++ [Call.getMachineSet request, Call.listMachines machineSet.Namespace]
          ++ nodeCalls (pre ++ [m]) := by
  obtain ⟨hm, hn, hw, ho⟩ :=
    Reconcile_loop w request machineSet (pre ++ m :: rest) hget hlab hlist
  obtain ⟨e1, e2, e3, e4⟩ := rangeItems_abort machineSet.Labels pre m rest
    ⟨w.store, w.calls ++ [Call.getMachineSet request, Call.listMachines machineSet.Namespace]⟩
    ref err hpre href hlook
  refine ⟨⟨err, ?_⟩, ?_, ?_, ?_⟩
  · rw [ho, e1]
  · rw [hm, e2]
  · rw [hn, e3]
  · rw [hw, e4]

theorem reconcile_aborts_on_unfetchable_node_witness :
    (∃ e : Err, (Reconcile ghostNodeWorld workersRequest).outcome
      = .returned Result.empty (some e)) ∧
    (Reconcile ghostNodeWorld workersRequest).machines
      = [⟨"openshift-machine-api", "worker-0", some [("env", "prod")], ⟨some ⟨"node-0"⟩⟩⟩,
         ⟨"openshift-machine-api", "worker-1", some [("env", "prod")], ⟨some ⟨"ghost"⟩⟩⟩,
         ⟨"openshift-machine-api", "worker-2", none, ⟨some ⟨"node-2"⟩⟩⟩] ∧
    (Reconcile ghostNodeWorld workersRequest).nodes.length = 1 ∧
    (Reconcile ghostNodeWorld workersRequest).world.calls
      = [Call.getMachineSet workersRequest, Call.listMachines "openshift-machine-api",
          Call.getNode ⟨NamespaceNone, "node-0"⟩, Call.getNode ⟨NamespaceNone, "ghost"⟩] :=
  reconcile_aborts_on_unfetchable_node ghostNodeWorld workersRequest
    ⟨"openshift-machine-api", "workers", some [("env", "prod")]⟩
    [⟨"openshift-machine-api", "worker-0", none, ⟨some ⟨"node-0"⟩⟩⟩]
    ⟨"openshift-machine-api", "worker-1", none, ⟨some ⟨"ghost"⟩⟩⟩
    [⟨"openshift-machine-api", "worker-2", none, ⟨some ⟨"node-2"⟩⟩⟩]
    ⟨"ghost"⟩ (.notFound "ghost")
    (by decide) (by decide) (by decide) (by decide) (by decide) (by decide)

/-- C8, evaluated: a Machine whose `Status.NodeRef` is nil makes `Reconcile` dereference
the nil pointer at line 120: the call panics, after the label step on that Machine and
before any Node read, and the Machine after it is never visited. -/
theorem reconcile_panics_on_nil_nodeRef :
    (Reconcile unboundMachineWorld workersRequest).outcome = .panicked ∧
    (Reconcile unboundMachineWorld workersRequest).world.calls
      = [Call.getMachineSet workersRequest, Call.listMachines "openshift-machine-api"] ∧
    (Reconcile unboundMachineWorld workersRequest).machines
      = [⟨"openshift-machine-api", "worker-0", some [("env", "prod")], ⟨none⟩⟩,
         ⟨"openshift-machine-api", "worker-1", none, ⟨some ⟨"node-1"⟩⟩⟩] := by
  decide

/-- C9, evaluated: with desired `foo=bar` over a Machine and a Node that hold `foo=baz`,
`Reconcile` returns success and both keep `foo=baz` in memory instead of taking the
MachineSet's map; on the bare maps, the label step gives the empty map for `foo=bar` over
the empty map, and `foo=bar` for the empty map over `foo=bar`. -/
theorem reconcile_keeps_non_nil_target_labels :
    (Reconcile overwriteWorld ⟨"test", "test machineset"⟩).outcome
      = .returned Result.empty none ∧
    (Reconcile overwriteWorld ⟨"test", "test machineset"⟩).machines
      = [⟨"test", "test machine", some [("foo", "baz")], ⟨some ⟨"test-node"⟩⟩⟩] ∧
    (Reconcile overwriteWorld ⟨"test", "test machineset"⟩).nodes
      = [⟨"test-node", some [("foo", "baz")]⟩] ∧
    (∀ m ∈ (Reconcile overwriteWorld ⟨"test", "test machineset"⟩).machines,
      m.Labels ≠ some [("foo", "bar")]) ∧
    (∀ n ∈ (Reconcile overwriteWorld ⟨"test", "test machineset"⟩).nodes,
      n.Labels ≠ some [("foo", "bar")]) ∧
    labelStep (some [("foo", "bar")]) (some [("foo", "baz")]) = some [("foo", "baz")] ∧
    labelStep (some [("foo", "bar")]) (some []) = some [] ∧
    labelStep (some []) (some [("foo", "bar")]) = some [("foo", "bar")] := by
  decide

end MachineSetController
